import Mathlib

/-!
Shallow embedding of the numeric core of the `webots_ros2` repository:

* `webots_ros2_core/webots_ros2_core/math_utils.py` —
  `euler_to_quaternion`, `interpolate_function`, `interpolate_table`;
* `webots_ros2_epuck2/webots_ros2_epuck2/driver.py` —
  module-level copies of the same three helpers, the `EPuckDriver`
  odometry step (`odometry_callback`), the parameter-change handler
  (`on_param_changed` / `reset_odometry`) and the laser-scan assembly
  of `distance_callback`.

Python floats are modelled as exact numbers: by `ℚ` where the code is
pure rational arithmetic (table interpolation, scan assembly) and by
`ℝ` where trigonometric functions occur (quaternions, RK4 odometry).
Mutable attributes of the driver object become explicit state records;
each method becomes a function from the state and its inputs to the new
state and the values it publishes.
-/

namespace GeometryMsgs

/-- The `geometry_msgs.msg.Quaternion` message type: four float fields,
zero-initialised by the constructor. Shared by `math_utils.py` and
`driver.py`, both of which import it. -/
structure Quaternion where
  x : ℝ
  y : ℝ
  z : ℝ
  w : ℝ

end GeometryMsgs

namespace MathUtils

/-- Embedding of `euler_to_quaternion` from
`webots_ros2_core/math_utils.py` lines 5-16. -/
noncomputable def euler_to_quaternion (roll pitch yaw : ℝ) : GeometryMsgs.Quaternion where
  x := Real.sin (roll/2) * Real.cos (pitch/2) * Real.cos (yaw/2) -
       Real.cos (roll/2) * Real.sin (pitch/2) * Real.sin (yaw/2)
  y := Real.cos (roll/2) * Real.sin (pitch/2) * Real.cos (yaw/2) +
       Real.sin (roll/2) * Real.cos (pitch/2) * Real.sin (yaw/2)
  z := Real.cos (roll/2) * Real.cos (pitch/2) * Real.sin (yaw/2) -
       Real.sin (roll/2) * Real.sin (pitch/2) * Real.cos (yaw/2)
  w := Real.cos (roll/2) * Real.cos (pitch/2) * Real.cos (yaw/2) +
       Real.sin (roll/2) * Real.sin (pitch/2) * Real.sin (yaw/2)

/-- Embedding of `interpolate_function` from
`webots_ros2_core/math_utils.py` lines 19-21. -/
def interpolate_function (value start_x start_y end_x end_y : ℚ) : ℚ :=
  let slope := (end_y - start_y) / (end_x - start_x)
  slope * (value - start_x) + start_y

/-- The bracket-searching `for` loop of `interpolate_table`
(`math_utils.py` lines 25-34): scan consecutive entries
`table[i], table[i+1]`; on the first pair whose raw column brackets
`value`, return the interpolated result; `none` models falling out of
the loop without returning. -/
def bracketScan (value : ℚ) : List (ℚ × ℚ) → Option ℚ
  | p :: q :: rest =>
    if (value < p.2 ∧ value ≥ q.2) ∨ (value > p.2 ∧ value ≤ q.2) then
      some (interpolate_function value p.2 p.1 q.2 q.1)
    else bracketScan value (q :: rest)
  | _ => none

/-- Embedding of `interpolate_table` from
`webots_ros2_core/math_utils.py` lines 24-54. Out-of-range list indexing
(possible only for tables of fewer than 2 rows, which Python would turn
into an `IndexError`) is totalised with the default entry `(0, 0)`. -/
def interpolate_table (value : ℚ) (table : List (ℚ × ℚ)) : ℚ :=
  match bracketScan value table with
  | some r => r
  | none =>
    if value > (table.getD 0 (0, 0)).2 then
      interpolate_function value
        (table.getD 0 (0, 0)).2 (table.getD 0 (0, 0)).1
        (table.getD 1 (0, 0)).2 (table.getD 1 (0, 0)).1
    else
      interpolate_function value
        (table.getD (table.length - 2) (0, 0)).2
        (table.getD (table.length - 2) (0, 0)).1
        (table.getD (table.length - 1) (0, 0)).2
        (table.getD (table.length - 1) (0, 0)).1

/-- The calibration-table convention assumed by `interpolate_table`
(comment at `math_utils.py` line 36): the raw column (second component)
is strictly descending. -/
def RawDescending (table : List (ℚ × ℚ)) : Prop :=
  table.Pairwise (fun a b => b.2 < a.2)

instance : DecidablePred RawDescending := fun t =>
  List.instDecidablePairwise t

end MathUtils

namespace EPuckDriver

/-- `OUT_OF_RANGE` constant, `driver.py` line 33. -/
def OUT_OF_RANGE : ℚ := 0

/-- `SENSOR_DIST_FROM_CENTER` constant, `driver.py` line 48. -/
def SENSOR_DIST_FROM_CENTER : ℚ := 0.035

/-- `TOF_TABLE` constant, `driver.py` lines 50-59, as `(physical, raw)` rows. -/
def TOF_TABLE : List (ℚ × ℚ) :=
  [(2.00, 2000.0), (1.70, 1780.5), (1.00, 1052.0), (0.50, 531.9),
   (0.20, 218.9), (0.10, 111.0), (0.05, 58.5), (0.00, 19.8)]

/-- `DISTANCE_TABLE` constant, `driver.py` lines 61-71, as `(physical, raw)` rows. -/
def DISTANCE_TABLE : List (ℚ × ℚ) :=
  [(0, 4095), (0.005, 2133.33), (0.01, 1465.73), (0.015, 601.46), (0.02, 383.84),
   (0.03, 234.93), (0.04, 158.03), (0.05, 120), (0.06, 104.09)]

/-- Embedding of the module-level `euler_to_quaternion` copy in
`driver.py` lines 74-85. -/
noncomputable def euler_to_quaternion (roll pitch yaw : ℝ) : GeometryMsgs.Quaternion where
  x := Real.sin (roll/2) * Real.cos (pitch/2) * Real.cos (yaw/2) -
       Real.cos (roll/2) * Real.sin (pitch/2) * Real.sin (yaw/2)
  y := Real.cos (roll/2) * Real.sin (pitch/2) * Real.cos (yaw/2) +
       Real.sin (roll/2) * Real.cos (pitch/2) * Real.sin (yaw/2)
  z := Real.cos (roll/2) * Real.cos (pitch/2) * Real.sin (yaw/2) -
       Real.sin (roll/2) * Real.sin (pitch/2) * Real.cos (yaw/2)
  w := Real.cos (roll/2) * Real.cos (pitch/2) * Real.cos (yaw/2) +
       Real.sin (roll/2) * Real.sin (pitch/2) * Real.sin (yaw/2)

/-- Embedding of the module-level `interpolate_function` copy in
`driver.py` lines 88-90 (parameters named `startX` etc. in this copy). -/
def interpolate_function (value startX startY endX endY : ℚ) : ℚ :=
  let slope := (endY - startY) / (endX - startX)
  slope * (value - startX) + startY

/-- The bracket-searching `for` loop of the `interpolate_table` copy in
`driver.py` lines 94-103. -/
def bracketScan (value : ℚ) : List (ℚ × ℚ) → Option ℚ
  | p :: q :: rest =>
    if (value < p.2 ∧ value ≥ q.2) ∨ (value > p.2 ∧ value ≤ q.2) then
      some (interpolate_function value p.2 p.1 q.2 q.1)
    else bracketScan value (q :: rest)
  | _ => none

/-- Embedding of the module-level `interpolate_table` copy in
`driver.py` lines 93-123. -/
def interpolate_table (value : ℚ) (table : List (ℚ × ℚ)) : ℚ :=
  match bracketScan value table with
  | some r => r
  | none =>
    if value > (table.getD 0 (0, 0)).2 then
      interpolate_function value
        (table.getD 0 (0, 0)).2 (table.getD 0 (0, 0)).1
        (table.getD 1 (0, 0)).2 (table.getD 1 (0, 0)).1
    else
      interpolate_function value
        (table.getD (table.length - 2) (0, 0)).2
        (table.getD (table.length - 2) (0, 0)).1
        (table.getD (table.length - 1) (0, 0)).2
        (table.getD (table.length - 1) (0, 0)).1

/-- The mutable odometry attributes of an `EPuckDriver` instance:
`prev_left_wheel_ticks`, `prev_right_wheel_ticks`, `prev_position`
(an x, y pair) and `prev_angle`. -/
structure OdomState where
  prev_left_wheel_ticks : ℝ
  prev_right_wheel_ticks : ℝ
  prev_position : ℝ × ℝ
  prev_angle : ℝ

/-- `reset_odometry`, `driver.py` lines 209-213: zero ticks, position
`(0.0, 0.0)` and angle `0.0`. -/
def reset_odometry : OdomState :=
  { prev_left_wheel_ticks := 0
    prev_right_wheel_ticks := 0
    prev_position := (0, 0)
    prev_angle := 0 }

/-- The driver attributes touched by `on_param_changed`: the two wheel
geometry parameters plus the odometry state. -/
structure DriverState where
  wheel_radius : ℝ
  wheel_distance : ℝ
  odom : OdomState

/-- Embedding of `on_param_changed`, `driver.py` lines 215-227: each
changed parameter is processed in order; `wheel_radius` and
`wheel_distance` reset the odometry before the new value is stored;
`result.successful` is always `True`. A parameter is a `(name, value)`
pair. -/
def on_param_changed (s : DriverState) (params : List (String × ℝ)) :
    DriverState × Bool :=
  (params.foldl
    (fun st param =>
      if param.1 = "wheel_radius" then
        { st with odom := reset_odometry, wheel_radius := param.2 }
      else if param.1 = "wheel_distance" then
        { st with odom := reset_odometry, wheel_distance := param.2 }
      else st)
    s, true)

/-- Local `v_left_rad` of `odometry_callback`, `driver.py` lines 255-256. -/
noncomputable def v_left_rad (s : OdomState) (left_wheel_ticks encoder_period_s : ℝ) : ℝ :=
  (left_wheel_ticks - s.prev_left_wheel_ticks) / encoder_period_s

/-- Local `v_right_rad` of `odometry_callback`, `driver.py` lines 257-258. -/
noncomputable def v_right_rad (s : OdomState) (right_wheel_ticks encoder_period_s : ℝ) : ℝ :=
  (right_wheel_ticks - s.prev_right_wheel_ticks) / encoder_period_s

/-- Local `v_left` of `odometry_callback`, `driver.py` line 259. -/
noncomputable def v_left (s : OdomState) (left_wheel_ticks encoder_period_s wheel_radius : ℝ) : ℝ :=
  v_left_rad s left_wheel_ticks encoder_period_s * wheel_radius

/-- Local `v_right` of `odometry_callback`, `driver.py` line 260. -/
noncomputable def v_right (s : OdomState) (right_wheel_ticks encoder_period_s wheel_radius : ℝ) : ℝ :=
  v_right_rad s right_wheel_ticks encoder_period_s * wheel_radius

/-- Local `v` of `odometry_callback`, `driver.py` line 261. -/
noncomputable def v (s : OdomState) (left_wheel_ticks right_wheel_ticks encoder_period_s wheel_radius : ℝ) : ℝ :=
  (v_left s left_wheel_ticks encoder_period_s wheel_radius +
   v_right s right_wheel_ticks encoder_period_s wheel_radius) / 2

/-- Local `omega` of `odometry_callback`, `driver.py` line 262. -/
noncomputable def omega (s : OdomState) (left_wheel_ticks right_wheel_ticks encoder_period_s wheel_radius
    wheel_distance : ℝ) : ℝ :=
  (v_right s right_wheel_ticks encoder_period_s wheel_radius -
   v_left s left_wheel_ticks encoder_period_s wheel_radius) / wheel_distance

/-- Embedding of the state-and-twist core of `odometry_callback`,
`driver.py` lines 249-292: the Runge-Kutta stage evaluations `k00`-`k32`
exactly as written in the source (each of `k10`, `k20` and `k30` shifts
the angle by `encoder_period_s * k_2 / 2` where `k_2` is the previous
stage's angular slope), the new position and angle, and the update of
the previous-tick attributes to the raw readings. Returns the new state
together with the published twist `(v, omega)`. -/
noncomputable def odometry_callback (s : OdomState)
    (left_wheel_ticks right_wheel_ticks encoder_period_s wheel_radius wheel_distance : ℝ) :
    OdomState × ℝ × ℝ :=
  let v := EPuckDriver.v s left_wheel_ticks right_wheel_ticks encoder_period_s wheel_radius
  let omega := EPuckDriver.omega s left_wheel_ticks right_wheel_ticks encoder_period_s
    wheel_radius wheel_distance
  let k00 := v * Real.cos s.prev_angle
  let k01 := v * Real.sin s.prev_angle
  let k02 := omega
  let k10 := v * Real.cos (s.prev_angle + encoder_period_s * k02 / 2)
  let k11 := v * Real.sin (s.prev_angle + encoder_period_s * k02 / 2)
  let k12 := omega
  let k20 := v * Real.cos (s.prev_angle + encoder_period_s * k12 / 2)
  let k21 := v * Real.sin (s.prev_angle + encoder_period_s * k12 / 2)
  let k22 := omega
  let k30 := v * Real.cos (s.prev_angle + encoder_period_s * k22 / 2)
  let k31 := v * Real.sin (s.prev_angle + encoder_period_s * k22 / 2)
  let k32 := omega
  let position : ℝ × ℝ :=
    (s.prev_position.1 + (encoder_period_s / 6) * (k00 + 2 * (k10 + k20) + k30),
     s.prev_position.2 + (encoder_period_s / 6) * (k01 + 2 * (k11 + k21) + k31))
  let angle := s.prev_angle + (encoder_period_s / 6) * (k02 + 2 * (k12 + k22) + k32)
  ({ prev_left_wheel_ticks := left_wheel_ticks
     prev_right_wheel_ticks := right_wheel_ticks
     prev_position := position
     prev_angle := angle }, v, omega)

/-- Embedding of the `msg.ranges` laser-scan assembly in
`distance_callback`, `driver.py` lines 347-369: 21 bins from -150° to
+150° in 15° steps; 8 bins take a calibrated infrared distance plus the
sensor-to-center offset, the bin at 0° takes the time-of-flight distance
plus the offset, every other bin is `OUT_OF_RANGE`. The source adds the
constant `SENSOR_DIST_FROM_CENTER`; here the offset is a parameter and
the source's behaviour is the instance at `SENSOR_DIST_FROM_CENTER`. -/
def scan_ranges (dists : Fin 8 → ℚ) (dist_tof sensor_dist_from_center : ℚ) : List ℚ :=
  [dists 3 + sensor_dist_from_center,
   OUT_OF_RANGE,
   OUT_OF_RANGE,
   OUT_OF_RANGE,
   dists 2 + sensor_dist_from_center,
   OUT_OF_RANGE,
   OUT_OF_RANGE,
   dists 1 + sensor_dist_from_center,
   OUT_OF_RANGE,
   dists 0 + sensor_dist_from_center,
   dist_tof + sensor_dist_from_center,
   dists 7 + sensor_dist_from_center,
   OUT_OF_RANGE,
   dists 6 + sensor_dist_from_center,
   OUT_OF_RANGE,
   OUT_OF_RANGE,
   dists 5 + sensor_dist_from_center,
   OUT_OF_RANGE,
   OUT_OF_RANGE,
   OUT_OF_RANGE,
   dists 4 + sensor_dist_from_center]

end EPuckDriver

namespace MathUtils

/-- In a raw-descending table the raw column strictly decreases with the index. -/
theorem RawDescending.getD_lt {t : List (ℚ × ℚ)} (ht : RawDescending t) {i j : ℕ}
    (hij : i < j) (hj : j < t.length) :
    (t.getD j (0, 0)).2 < (t.getD i (0, 0)).2 := by
  have hi : i < t.length := lt_trans hij hj
  rw [List.getD_eq_getElem t _ hj, List.getD_eq_getElem t _ hi]
  exact List.pairwise_iff_getElem.mp ht i j hi hj hij

/-- If the query sits in the bracket `(table[i], table[i+1])` of a
raw-descending table — strictly below `raw[i]`, at least `raw[i+1]` —
then the scan loop stops exactly at index `i` and returns the
interpolation over that bracket. -/
theorem bracketScan_hit (value : ℚ) :
    ∀ (t : List (ℚ × ℚ)) (i : ℕ), RawDescending t → i + 1 < t.length →
      (t.getD (i + 1) (0, 0)).2 ≤ value → value < (t.getD i (0, 0)).2 →
      bracketScan value t =
        some (interpolate_function value (t.getD i (0, 0)).2 (t.getD i (0, 0)).1
          (t.getD (i + 1) (0, 0)).2 (t.getD (i + 1) (0, 0)).1) := by
  intro t
  induction t with
  | nil => intro i _ hi _ _; simp at hi
  | cons a rest ih =>
    intro i ht hi hmid htop
    cases rest with
    | nil => simp at hi
    | cons b rest2 =>
      obtain ⟨hhead, htail⟩ := List.pairwise_cons.mp ht
      have hba : b.2 < a.2 := hhead b (List.mem_cons_self b rest2)
      cases i with
      | zero =>
        simp only [List.getD_cons_zero, List.getD_cons_succ] at hmid htop ⊢
        simp only [bracketScan]
        rw [if_pos (Or.inl ⟨htop, hmid⟩)]
      | succ j =>
        simp only [List.getD_cons_succ] at hmid htop ⊢
        simp only [List.length_cons] at hi
        have hj1 : j + 1 < (b :: rest2).length := by
          simp only [List.length_cons]; omega
        have hvb : value < b.2 := by
          rcases Nat.eq_zero_or_pos j with rfl | hjpos
          · simpa using htop
          · have := RawDescending.getD_lt htail (i := 0) (j := j) hjpos (by omega)
            simp only [List.getD_cons_zero] at this
            exact lt_trans htop this
        have hva : value < a.2 := lt_trans hvb hba
        simp only [bracketScan]
        rw [if_neg]
        · exact ih j htail hj1 hmid htop
        · push_neg
          constructor
          · intro _; simpa using hvb
          · intro hgt; exact absurd hgt (not_lt.mpr (le_of_lt hva))

/-- The scan loop finds no bracket when the query is strictly above
every raw value of the table. -/
theorem bracketScan_none_of_above (value : ℚ) :
    ∀ t : List (ℚ × ℚ), (∀ p ∈ t, p.2 < value) → bracketScan value t = none := by
  intro t
  induction t with
  | nil => intro _; rfl
  | cons a rest ih =>
    intro h
    cases rest with
    | nil => rfl
    | cons b rest2 =>
      have hav : a.2 < value := h a (List.mem_cons_self a _)
      have hbv : b.2 < value := h b (List.mem_cons_of_mem a (List.mem_cons_self b _))
      simp only [bracketScan]
      rw [if_neg]
      · exact ih fun p hp => h p (List.mem_cons_of_mem a hp)
      · push_neg
        constructor
        · intro hlt; exact absurd hlt (not_lt.mpr (le_of_lt hav))
        · intro _; simpa using hbv

/-- The scan loop finds no bracket when the query is strictly below
every raw value of the table. -/
theorem bracketScan_none_of_below (value : ℚ) :
    ∀ t : List (ℚ × ℚ), (∀ p ∈ t, value < p.2) → bracketScan value t = none := by
  intro t
  induction t with
  | nil => intro _; rfl
  | cons a rest ih =>
    intro h
    cases rest with
    | nil => rfl
    | cons b rest2 =>
      have hva : value < a.2 := h a (List.mem_cons_self a _)
      have hvb : value < b.2 := h b (List.mem_cons_of_mem a (List.mem_cons_self b _))
      simp only [bracketScan]
      rw [if_neg]
      · exact ih fun p hp => h p (List.mem_cons_of_mem a hp)
      · push_neg
        constructor
        · intro _; simpa using hvb
        · intro hgt; exact absurd hgt (not_lt.mpr (le_of_lt hva))

/-- In a raw-descending table, a query above the first raw value is
above every raw value. -/
theorem forall_lt_of_above {value : ℚ} {t : List (ℚ × ℚ)} (ht : RawDescending t)
    (h : (t.getD 0 (0, 0)).2 < value) : ∀ p ∈ t, p.2 < value := by
  intro p hp
  obtain ⟨n, hn, rfl⟩ := List.getElem_of_mem hp
  rcases Nat.eq_zero_or_pos n with rfl | hpos
  · rwa [List.getD_eq_getElem t _ hn] at h
  · have h0 : 0 < t.length := lt_trans hpos hn
    have := RawDescending.getD_lt ht hpos hn
    rw [List.getD_eq_getElem t _ hn] at this
    exact lt_trans this h

/-- In a raw-descending table, a query below the last raw value is
below every raw value. -/
theorem forall_gt_of_below {value : ℚ} {t : List (ℚ × ℚ)} (ht : RawDescending t)
    (h : value < (t.getD (t.length - 1) (0, 0)).2) : ∀ p ∈ t, value < p.2 := by
  intro p hp
  obtain ⟨n, hn, rfl⟩ := List.getElem_of_mem hp
  rcases Nat.lt_or_ge n (t.length - 1) with hlt | hge
  · have hlast : t.length - 1 < t.length := by omega
    have := RawDescending.getD_lt ht hlt hlast
    rw [List.getD_eq_getElem t _ hn] at this
    exact lt_trans h this
  · have : n = t.length - 1 := by omega
    subst this
    rwa [List.getD_eq_getElem t _ hn] at h

/-- Lookup when the bracket `(table[i], table[i+1])` contains the query:
the result is the interpolation over that bracket. -/
theorem interpolate_table_hit (value : ℚ) (t : List (ℚ × ℚ)) (i : ℕ) (ht : RawDescending t)
    (hi : i + 1 < t.length) (hmid : (t.getD (i + 1) (0, 0)).2 ≤ value)
    (htop : value < (t.getD i (0, 0)).2) :
    interpolate_table value t =
      interpolate_function value (t.getD i (0, 0)).2 (t.getD i (0, 0)).1
        (t.getD (i + 1) (0, 0)).2 (t.getD (i + 1) (0, 0)).1 := by
  simp only [interpolate_table, bracketScan_hit value t i ht hi hmid htop]

/-- Lookup of a query above the whole raw column: extrapolation along
the line through the first two entries. -/
theorem interpolate_table_above (value : ℚ) (t : List (ℚ × ℚ)) (ht : RawDescending t)
    (h : (t.getD 0 (0, 0)).2 < value) :
    interpolate_table value t =
      interpolate_function value (t.getD 0 (0, 0)).2 (t.getD 0 (0, 0)).1
        (t.getD 1 (0, 0)).2 (t.getD 1 (0, 0)).1 := by
  have hnone := bracketScan_none_of_above value t (forall_lt_of_above ht h)
  simp only [interpolate_table, hnone]
  rw [if_pos h]

/-- Lookup of a query below the whole raw column: extrapolation along
the line through the last two entries. -/
theorem interpolate_table_below (value : ℚ) (t : List (ℚ × ℚ)) (ht : RawDescending t)
    (hlen : 2 ≤ t.length) (h : value < (t.getD (t.length - 1) (0, 0)).2) :
    interpolate_table value t =
      interpolate_function value
        (t.getD (t.length - 2) (0, 0)).2 (t.getD (t.length - 2) (0, 0)).1
        (t.getD (t.length - 1) (0, 0)).2 (t.getD (t.length - 1) (0, 0)).1 := by
  have hnone := bracketScan_none_of_below value t (forall_gt_of_below ht h)
  have h0 : value < (t.getD 0 (0, 0)).2 := by
    rcases Nat.lt_or_ge 1 t.length with h1 | h1
    · exact lt_trans h (RawDescending.getD_lt ht (by omega) (by omega))
    · omega
  simp only [interpolate_table, hnone]
  rw [if_neg (not_lt.mpr (le_of_lt h0))]

/-- Lookup of a tabulated raw value at index `i ≥ 1` reproduces the
tabulated physical value exactly. -/
theorem interpolate_table_knot_eq (t : List (ℚ × ℚ)) (ht : RawDescending t) (i : ℕ)
    (h1 : 1 ≤ i) (hi : i < t.length) :
    interpolate_table (t.getD i (0, 0)).2 t = (t.getD i (0, 0)).1 := by
  obtain ⟨j, rfl⟩ : ∃ j, i = j + 1 := ⟨i - 1, by omega⟩
  rw [interpolate_table_hit (t.getD (j + 1) (0, 0)).2 t j ht hi (le_refl _)
    (RawDescending.getD_lt ht (Nat.lt_succ_self j) hi)]
  have hne : (t.getD (j + 1) (0, 0)).2 - (t.getD j (0, 0)).2 ≠ 0 :=
    sub_ne_zero.mpr (ne_of_lt (RawDescending.getD_lt ht (Nat.lt_succ_self j) hi))
  simp only [interpolate_function]
  rw [div_mul_cancel₀ _ hne]
  ring

/-- For a two-row table the first knot is also reproduced: the scan
finds no bracket and the "interpolate as last" edge branch evaluates the
segment line at its own left endpoint. -/
theorem interpolate_table_first_knot_of_two (a b : ℚ × ℚ) :
    interpolate_table a.2 [a, b] = a.1 := by
  have hscan : bracketScan a.2 [a, b] = none := by
    simp only [bracketScan]
    rw [if_neg]
    push_neg
    constructor
    · intro h; exact absurd h (lt_irrefl a.2)
    · intro h; exact absurd h (lt_irrefl a.2)
  simp only [interpolate_table, hscan]
  split
  · next h =>
    simp only [List.getD_cons_zero] at h
    exact absurd h (lt_irrefl a.2)
  · norm_num [interpolate_function]

end MathUtils

/-- C2, counterexample: for the raw-descending 3-entry table
`[(0, 100), (1, 50), (3, 0)]` the lookup of the FIRST tabulated raw
value `r_0 = 100` does not return `p_0 = 0`: the scan finds no bracket
(`100 < 100` is false at the first pair) and the edge branch
extrapolates along the LAST two entries' line, giving `-1`. -/
theorem claim_C2_counterexample :
    MathUtils.RawDescending [(0, 100), (1, 50), (3, 0)] ∧
    MathUtils.interpolate_table 100 [(0, 100), (1, 50), (3, 0)] = -1 ∧
    (-1 : ℚ) ≠ 0 := by
  refine ⟨by decide, ?_, by norm_num⟩
  norm_num [MathUtils.interpolate_table, MathUtils.bracketScan, MathUtils.interpolate_function]

/-- C2, amended: for every raw-descending calibration table, lookup of
the tabulated raw value `r_i` returns the tabulated physical value `p_i`
for every index `i ≥ 1`; the first knot `i = 0` is reproduced when the
table has exactly 2 entries (in general the first knot falls through to
the last-segment extrapolation branch). -/
theorem claim_C2_knot_reproduction (t : List (ℚ × ℚ)) (ht : MathUtils.RawDescending t) :
    (∀ i : ℕ, 1 ≤ i → i < t.length →
      MathUtils.interpolate_table (t.getD i (0, 0)).2 t = (t.getD i (0, 0)).1) ∧
    (∀ a b : ℚ × ℚ, t = [a, b] →
      MathUtils.interpolate_table a.2 t = a.1) := by
  constructor
  · intro i h1 hi
    exact MathUtils.interpolate_table_knot_eq t ht i h1 hi
  · rintro a b rfl
    exact MathUtils.interpolate_table_first_knot_of_two a b

/-- Witness for C2: on the descending table `[(0, 100), (1, 50), (3, 0)]`
the knot at index 1 reproduces its physical value 1, and on the two-row
table `[(0, 100), (1, 50)]` the first knot reproduces 0. -/
theorem claim_C2_knot_reproduction_witness :
    MathUtils.interpolate_table 50 [(0, 100), (1, 50), (3, 0)] = 1 ∧
    MathUtils.interpolate_table 100 [(0, 100), (1, 50)] = 0 := by
  constructor
  · exact (claim_C2_knot_reproduction [(0, 100), (1, 50), (3, 0)] (by decide)).1 1
      (le_refl 1) (by decide)
  · exact (claim_C2_knot_reproduction [(0, 100), (1, 50)] (by decide)).2 (0, 100) (1, 50) rfl

/-- C4: for every raw-descending table of at least 2 entries, a query
strictly above the first raw value extrapolates along the first two
entries' line, and a query strictly below the last raw value
extrapolates along the last two entries' line; the (total) lookup
neither clamps nor fails. -/
theorem claim_C4_extrapolation (t : List (ℚ × ℚ)) (value : ℚ)
    (ht : MathUtils.RawDescending t) (hlen : 2 ≤ t.length) :
    ((t.getD 0 (0, 0)).2 < value →
      MathUtils.interpolate_table value t =
        MathUtils.interpolate_function value
          (t.getD 0 (0, 0)).2 (t.getD 0 (0, 0)).1
          (t.getD 1 (0, 0)).2 (t.getD 1 (0, 0)).1) ∧
    (value < (t.getD (t.length - 1) (0, 0)).2 →
      MathUtils.interpolate_table value t =
        MathUtils.interpolate_function value
          (t.getD (t.length - 2) (0, 0)).2 (t.getD (t.length - 2) (0, 0)).1
          (t.getD (t.length - 1) (0, 0)).2 (t.getD (t.length - 1) (0, 0)).1) :=
  ⟨fun h => MathUtils.interpolate_table_above value t ht h,
   fun h => MathUtils.interpolate_table_below value t ht hlen h⟩

/-- Witness for C4: on `[(0, 100), (1, 50), (3, 0)]` the query 110
(10% above the first raw value) continues the first segment's line to
`-1/5`, and the query -10 continues the last segment's line to `17/5`. -/
theorem claim_C4_extrapolation_witness :
    MathUtils.interpolate_table 110 [(0, 100), (1, 50), (3, 0)] = -1/5 ∧
    MathUtils.interpolate_table (-10) [(0, 100), (1, 50), (3, 0)] = 17/5 := by
  constructor
  · rw [(claim_C4_extrapolation [(0, 100), (1, 50), (3, 0)] 110 (by decide) (by decide)).1
      (by decide)]
    norm_num [MathUtils.interpolate_function]
  · rw [(claim_C4_extrapolation [(0, 100), (1, 50), (3, 0)] (-10) (by decide) (by decide)).2
      (by decide)]
    norm_num [MathUtils.interpolate_function]

/-- C5: for every raw-descending table and every query strictly inside
the bracket `(raw[i+1], raw[i])`, the lookup equals the exact linear
blend `physical[i] + (physical[i+1] - physical[i]) * (value - raw[i]) /
(raw[i+1] - raw[i])`. -/
theorem claim_C5_linear_blend (t : List (ℚ × ℚ)) (i : ℕ) (value : ℚ)
    (ht : MathUtils.RawDescending t) (hi : i + 1 < t.length)
    (hlow : (t.getD (i + 1) (0, 0)).2 < value)
    (hhigh : value < (t.getD i (0, 0)).2) :
    MathUtils.interpolate_table value t =
      (t.getD i (0, 0)).1 +
        ((t.getD (i + 1) (0, 0)).1 - (t.getD i (0, 0)).1) *
          (value - (t.getD i (0, 0)).2) /
          ((t.getD (i + 1) (0, 0)).2 - (t.getD i (0, 0)).2) := by
  rw [MathUtils.interpolate_table_hit value t i ht hi (le_of_lt hlow) hhigh]
  simp only [MathUtils.interpolate_function]
  ring

/-- Witness for C5, the claim's own example: on the table
`[(0, 4095), (0.005, 2133.33)]` the raw midpoint 3114.165 maps to
exactly 0.0025. -/
theorem claim_C5_linear_blend_witness :
    MathUtils.interpolate_table (3114.165 : ℚ) [(0, 4095), (0.005, 2133.33)] = 0.0025 := by
  rw [claim_C5_linear_blend [(0, 4095), (0.005, 2133.33)] 0 3114.165
    (by norm_num [MathUtils.RawDescending, List.pairwise_cons])
    (by norm_num)
    (by norm_num [List.getD_cons_succ, List.getD_cons_zero])
    (by norm_num [List.getD_cons_zero])]
  norm_num

/-- The driver's module-level copy of the bracket-searching loop agrees
with the core's on every input. -/
theorem bracketScan_copy_eq (value : ℚ) :
    ∀ t : List (ℚ × ℚ), MathUtils.bracketScan value t = EPuckDriver.bracketScan value t := by
  intro t
  induction t with
  | nil => rfl
  | cons a rest ih =>
    cases rest with
    | nil => rfl
    | cons b rest2 =>
      simp only [MathUtils.bracketScan, EPuckDriver.bracketScan]
      by_cases h : (value < a.2 ∧ value ≥ b.2) ∨ (value > a.2 ∧ value ≤ b.2)
      · rw [if_pos h, if_pos h]
        rfl
      · rw [if_neg h, if_neg h]
        exact ih

/-- The driver's module-level copy of `interpolate_table` agrees with
the core's on every input. -/
theorem interpolate_table_copy_eq (value : ℚ) (t : List (ℚ × ℚ)) :
    MathUtils.interpolate_table value t = EPuckDriver.interpolate_table value t := by
  simp only [MathUtils.interpolate_table, EPuckDriver.interpolate_table,
    bracketScan_copy_eq value]
  cases EPuckDriver.bracketScan value t with
  | some r => rfl
  | none => rfl

/-- C10: the `euler_to_quaternion` and `interpolate_table` copies
defined at module level in `driver.py` are extensionally equal to the
identically named functions of `math_utils.py`. -/
theorem claim_C10_copies_extensionally_equal :
    (∀ roll pitch yaw : ℝ,
      MathUtils.euler_to_quaternion roll pitch yaw =
        EPuckDriver.euler_to_quaternion roll pitch yaw) ∧
    (∀ (value : ℚ) (table : List (ℚ × ℚ)),
      MathUtils.interpolate_table value table = EPuckDriver.interpolate_table value table) :=
  ⟨fun _ _ _ => rfl, fun value table => interpolate_table_copy_eq value table⟩

/-- C6: for every Euler triple the quaternion built by
`euler_to_quaternion` has unit norm (sum of squared components 1), and
at roll = pitch = yaw = 0 it is exactly `(0, 0, 0, 1)`. -/
theorem claim_C6_unit_quaternion :
    (∀ roll pitch yaw : ℝ,
      (MathUtils.euler_to_quaternion roll pitch yaw).x ^ 2 +
        (MathUtils.euler_to_quaternion roll pitch yaw).y ^ 2 +
        (MathUtils.euler_to_quaternion roll pitch yaw).z ^ 2 +
        (MathUtils.euler_to_quaternion roll pitch yaw).w ^ 2 = 1) ∧
    MathUtils.euler_to_quaternion 0 0 0 = { x := 0, y := 0, z := 0, w := 1 } := by
  constructor
  · intro roll pitch yaw
    simp only [MathUtils.euler_to_quaternion]
    have key : ∀ a b c : ℝ,
        (Real.sin a * Real.cos b * Real.cos c - Real.cos a * Real.sin b * Real.sin c) ^ 2 +
          (Real.cos a * Real.sin b * Real.cos c + Real.sin a * Real.cos b * Real.sin c) ^ 2 +
          (Real.cos a * Real.cos b * Real.sin c - Real.sin a * Real.sin b * Real.cos c) ^ 2 +
          (Real.cos a * Real.cos b * Real.cos c + Real.sin a * Real.sin b * Real.sin c) ^ 2 =
        (Real.sin a ^ 2 + Real.cos a ^ 2) * (Real.sin b ^ 2 + Real.cos b ^ 2) *
          (Real.sin c ^ 2 + Real.cos c ^ 2) := by
      intro a b c
      ring
    rw [key, Real.sin_sq_add_cos_sq, Real.sin_sq_add_cos_sq, Real.sin_sq_add_cos_sq]
    norm_num
  · simp [MathUtils.euler_to_quaternion, GeometryMsgs.Quaternion.mk.injEq]

/-- C7: a parameter change of `wheel_radius` or of `wheel_distance`
(the track width) resets the whole odometry state — previous encoder
ticks, position and angle — to zero, whatever state had accumulated. -/
theorem claim_C7_reset_on_geometry_change :
    ∀ (s : EPuckDriver.DriverState) (x : ℝ),
      ((EPuckDriver.on_param_changed s [("wheel_radius", x)]).1.odom =
        { prev_left_wheel_ticks := 0, prev_right_wheel_ticks := 0,
          prev_position := (0, 0), prev_angle := 0 }) ∧
      ((EPuckDriver.on_param_changed s [("wheel_distance", x)]).1.odom =
        { prev_left_wheel_ticks := 0, prev_right_wheel_ticks := 0,
          prev_position := (0, 0), prev_angle := 0 }) ∧
      (EPuckDriver.on_param_changed s [("wheel_radius", x)]).2 = true := by
  intro s x
  refine ⟨?_, ?_, rfl⟩
  · simp [EPuckDriver.on_param_changed, EPuckDriver.reset_odometry]
  · simp [EPuckDriver.on_param_changed, EPuckDriver.reset_odometry]

/-- C3, counterexample: with all eight calibrated distances 1, the
time-of-flight distance 1 and offset 0, the assembled scan has only 12
zero bins, not 13: a ninth bin — index 10, bearing 0° — is populated
(with the time-of-flight return), so only 8 of 21 bins cannot account
for the populated set. -/
theorem claim_C3_counterexample :
    ((EPuckDriver.scan_ranges (fun _ => 1) 1 0).count 0 = 12) ∧
    ((EPuckDriver.scan_ranges (fun _ => 1) 1 0).getD 10 0 = 1) ∧
    (12 : ℕ) ≠ 13 := by
  refine ⟨?_, ?_, by norm_num⟩
  · norm_num [EPuckDriver.scan_ranges, EPuckDriver.OUT_OF_RANGE, List.count_cons,
      List.count_nil]
  · norm_num [EPuckDriver.scan_ranges, List.getD_cons_succ, List.getD_cons_zero]

/-- C3, amended: for every 8-tuple of calibrated distances, every
time-of-flight distance and every offset `s`, the assembled scan has
exactly 21 bins; the 8 infrared distances populate the documented
indices 0, 4, 7, 9, 11, 13, 16, 20 with `value[i] + s`, the
time-of-flight distance populates index 10 (bearing 0°) with `tof + s`,
and the remaining 12 bins hold the sentinel zero regardless of `s`. -/
theorem claim_C3_scan_layout (dists : Fin 8 → ℚ) (dist_tof s : ℚ) :
    (EPuckDriver.scan_ranges dists dist_tof s).length = 21 ∧
    ((EPuckDriver.scan_ranges dists dist_tof s).getD 0 0 = dists 3 + s ∧
     (EPuckDriver.scan_ranges dists dist_tof s).getD 4 0 = dists 2 + s ∧
     (EPuckDriver.scan_ranges dists dist_tof s).getD 7 0 = dists 1 + s ∧
     (EPuckDriver.scan_ranges dists dist_tof s).getD 9 0 = dists 0 + s ∧
     (EPuckDriver.scan_ranges dists dist_tof s).getD 10 0 = dist_tof + s ∧
     (EPuckDriver.scan_ranges dists dist_tof s).getD 11 0 = dists 7 + s ∧
     (EPuckDriver.scan_ranges dists dist_tof s).getD 13 0 = dists 6 + s ∧
     (EPuckDriver.scan_ranges dists dist_tof s).getD 16 0 = dists 5 + s ∧
     (EPuckDriver.scan_ranges dists dist_tof s).getD 20 0 = dists 4 + s) ∧
    (∀ i ∈ ([1, 2, 3, 5, 6, 8, 12, 14, 15, 17, 18, 19] : List ℕ),
      (EPuckDriver.scan_ranges dists dist_tof s).getD i 0 = 0) := by
  refine ⟨rfl, ⟨rfl, rfl, rfl, rfl, rfl, rfl, rfl, rfl, rfl⟩, ?_⟩
  intro i hi
  fin_cases hi <;> rfl

/-- C8: when the computed wheel linear speeds are exact opposites
(`v_left = -v_right`, hence body speed `v = 0`), one odometry step
leaves the position unchanged and advances the angle by exactly
`omega * dt`. -/
theorem claim_C8_pure_rotation (s : EPuckDriver.OdomState)
    (lticks rticks dt R L : ℝ)
    (h : EPuckDriver.v_left s lticks dt R = - EPuckDriver.v_right s rticks dt R) :
    ((EPuckDriver.odometry_callback s lticks rticks dt R L).1.prev_position =
      s.prev_position) ∧
    ((EPuckDriver.odometry_callback s lticks rticks dt R L).1.prev_angle =
      s.prev_angle + EPuckDriver.omega s lticks rticks dt R L * dt) := by
  have hv : EPuckDriver.v s lticks rticks dt R = 0 := by
    simp only [EPuckDriver.v, h]
    ring
  constructor
  · simp [EPuckDriver.odometry_callback, hv, Prod.mk.eta]
  · simp only [EPuckDriver.odometry_callback]
    ring

/-- Witness for C8: from the origin state, opposite tick deltas -1 and 1
with dt = 1, wheel radius 1 and track width 2 leave the position at
`(0, 0)` and advance the angle by `omega * 1`. -/
theorem claim_C8_pure_rotation_witness :
    ((EPuckDriver.odometry_callback ⟨0, 0, (0, 0), 0⟩ (-1) 1 1 1 2).1.prev_position =
      ((0 : ℝ), (0 : ℝ))) ∧
    ((EPuckDriver.odometry_callback ⟨0, 0, (0, 0), 0⟩ (-1) 1 1 1 2).1.prev_angle =
      0 + EPuckDriver.omega ⟨0, 0, (0, 0), 0⟩ (-1) 1 1 1 2 * 1) := by
  have h := claim_C8_pure_rotation ⟨0, 0, (0, 0), 0⟩ (-1) 1 1 1 2
    (by norm_num [EPuckDriver.v_left, EPuckDriver.v_right,
      EPuckDriver.v_left_rad, EPuckDriver.v_right_rad])
  exact ⟨h.1, h.2⟩

/-- C9: one odometry step with tick period dt > 0 publishes the twist
`v = (v_left + v_right) / 2` and `omega = (v_right - v_left) / L` with
`v_side = R * (ticks_side - prev_ticks_side) / dt`, and stores the raw
tick readings as the new previous-tick state. -/
theorem claim_C9_twist_and_state (s : EPuckDriver.OdomState)
    (lticks rticks dt R L : ℝ) (hdt : 0 < dt) :
    ((EPuckDriver.odometry_callback s lticks rticks dt R L).2.1 =
      (R * ((lticks - s.prev_left_wheel_ticks) / dt) +
        R * ((rticks - s.prev_right_wheel_ticks) / dt)) / 2) ∧
    ((EPuckDriver.odometry_callback s lticks rticks dt R L).2.2 =
      (R * ((rticks - s.prev_right_wheel_ticks) / dt) -
        R * ((lticks - s.prev_left_wheel_ticks) / dt)) / L) ∧
    ((EPuckDriver.odometry_callback s lticks rticks dt R L).1.prev_left_wheel_ticks =
      lticks) ∧
    ((EPuckDriver.odometry_callback s lticks rticks dt R L).1.prev_right_wheel_ticks =
      rticks) := by
  refine ⟨?_, ?_, rfl, rfl⟩
  · simp only [EPuckDriver.odometry_callback, EPuckDriver.v, EPuckDriver.v_left,
      EPuckDriver.v_right, EPuckDriver.v_left_rad, EPuckDriver.v_right_rad]
    ring
  · simp only [EPuckDriver.odometry_callback, EPuckDriver.omega, EPuckDriver.v_left,
      EPuckDriver.v_right, EPuckDriver.v_left_rad, EPuckDriver.v_right_rad]
    ring

/-- Witness for C9: from the origin state, tick readings 2 and 4 with
dt = 1, wheel radius 1 and track width 2 publish `v = 3`, `omega = 1`
and store previous ticks 2 and 4. -/
theorem claim_C9_twist_and_state_witness :
    ((EPuckDriver.odometry_callback ⟨0, 0, (0, 0), 0⟩ 2 4 1 1 2).2.1 = 3) ∧
    ((EPuckDriver.odometry_callback ⟨0, 0, (0, 0), 0⟩ 2 4 1 1 2).2.2 = 1) ∧
    ((EPuckDriver.odometry_callback ⟨0, 0, (0, 0), 0⟩ 2 4 1 1 2).1.prev_left_wheel_ticks = 2) ∧
    ((EPuckDriver.odometry_callback ⟨0, 0, (0, 0), 0⟩ 2 4 1 1 2).1.prev_right_wheel_ticks = 4) := by
  obtain ⟨h1, h2, h3, h4⟩ := claim_C9_twist_and_state ⟨0, 0, (0, 0), 0⟩ 2 4 1 1 2 (by norm_num)
  exact ⟨h1.trans (by norm_num), h2.trans (by norm_num), h3, h4⟩

/-- C1: evidence that the source's fourth Runge-Kutta stage is evaluated
at the HALF-step angle shift, not the full-step shift the claim states.
From the origin state with tick deltas `1 - pi` and `1 + pi`, dt = 1,
wheel radius 1 and track width 2 (so `v = 1`, `omega = pi`,
`theta_0 = 0`), the code's new x is `1/6` — stages `cos 0, cos (pi/2),
cos (pi/2), cos (pi/2)` — while the claimed combination with the
full-step fourth stage `cos pi` sums to exactly 0. -/
theorem claim_C1_k4_stage_divergence :
    ((EPuckDriver.odometry_callback ⟨0, 0, (0, 0), 0⟩ (1 - Real.pi) (1 + Real.pi) 1 1 2).1.prev_position.1 =
      1 / 6) ∧
    ((1 : ℝ) / 6 *
      (1 * Real.cos 0 + 2 * (1 * Real.cos (Real.pi / 2)) + 2 * (1 * Real.cos (Real.pi / 2)) +
        1 * Real.cos Real.pi) = 0) ∧
    ((1 : ℝ) / 6 ≠ 0) := by
  refine ⟨?_, ?_, by norm_num⟩
  · have hv : EPuckDriver.v ⟨0, 0, (0, 0), 0⟩ (1 - Real.pi) (1 + Real.pi) 1 1 = 1 := by
      simp only [EPuckDriver.v, EPuckDriver.v_left, EPuckDriver.v_right,
        EPuckDriver.v_left_rad, EPuckDriver.v_right_rad]
      ring
    have homega :
        EPuckDriver.omega ⟨0, 0, (0, 0), 0⟩ (1 - Real.pi) (1 + Real.pi) 1 1 2 = Real.pi := by
      simp only [EPuckDriver.omega, EPuckDriver.v_left, EPuckDriver.v_right,
        EPuckDriver.v_left_rad, EPuckDriver.v_right_rad]
      ring
    simp only [EPuckDriver.odometry_callback, hv, homega]
    norm_num [Real.cos_pi_div_two]
  · norm_num [Real.cos_pi_div_two, Real.cos_pi]

/-- Witness for C3: with all calibrated distances 2, time-of-flight 5
and offset 7, the scan has 21 bins, bin 0 carries `2 + 7`, bin 10
carries `5 + 7` and bin 1 carries the sentinel 0. -/
theorem claim_C3_scan_layout_witness :
    (EPuckDriver.scan_ranges (fun _ => 2) 5 7).length = 21 ∧
    (EPuckDriver.scan_ranges (fun _ => 2) 5 7).getD 0 0 = 2 + 7 ∧
    (EPuckDriver.scan_ranges (fun _ => 2) 5 7).getD 10 0 = 5 + 7 ∧
    (EPuckDriver.scan_ranges (fun _ => 2) 5 7).getD 1 0 = 0 := by
  obtain ⟨hlen, hpop, hzero⟩ := claim_C3_scan_layout (fun _ => 2) 5 7
  exact ⟨hlen, hpop.1, hpop.2.2.2.2.1, hzero 1 (by norm_num)⟩
